import Mathlib

/-!
# Verification of the consumer-order-vista order-management core

A shallow embedding of `src/api/index.ts` (together with the data model of
`src/types/index.ts`): the module-level mutable arrays `mockSaleOrders`,
`mockProducts`, `mockCustomers` become an explicit `Store` record threaded
through the operations, and the clock (`new Date().toISOString()`) becomes an
explicit `now : Nat` parameter (ISO timestamp strings are represented by their
millisecond values, which is how the source itself compares them via
`new Date(s).getTime()`).  JavaScript numbers are represented by `Int`.
Thrown errors become an `Except String` result; each operation returns the
resulting store alongside, mirroring the order of checks and mutations in the
source (all `throw`s happen before any mutation).
-/

namespace OrderApi

/-- The `CustomerProfile` record of `src/types/index.ts`. -/
structure CustomerProfile where
  id : Int
  name : String
  color : List Int
  email : String
  pincode : String
  location_name : String
  type : String
  profile_pic : Option String
  gst : String
deriving Repr, DecidableEq

/-- The `Customer` record of `src/types/index.ts`. -/
structure Customer where
  id : Int
  customer : Int
  customer_profile : CustomerProfile
deriving Repr, DecidableEq

/-- The `SKU` record of `src/types/index.ts`. -/
structure SKU where
  id : Int
  selling_price : Int
  max_retail_price : Int
  amount : Int
  unit : String
  quantity_in_inventory : Int
  product : Int
deriving Repr, DecidableEq

/-- The `Product` record of `src/types/index.ts`. -/
structure Product where
  id : Int
  display_id : Int
  owner : Int
  name : String
  category : String
  characteristics : String
  features : String
  brand : String
  sku : List SKU
  updated_on : String
  adding_date : String
deriving Repr, DecidableEq

/-- The `OrderItem` record of `src/types/index.ts`; `product_name` is optional. -/
structure OrderItem where
  sku_id : Int
  price : Int
  quantity : Int
  product_name : Option String := none
deriving Repr, DecidableEq

/-- The `SaleOrder` record of `src/types/index.ts`.  `created_at` and `last_modified`
are ISO timestamps in the source, represented here by their millisecond
values (`Nat`). -/
structure SaleOrder where
  id : Int
  customer_id : Int
  customer_name : String
  items : List OrderItem
  paid : Bool
  invoice_no : String
  invoice_date : String
  created_at : Nat
  last_modified : Nat
  total_price : Int
deriving Repr, DecidableEq, Inhabited

/-- The `SaleOrderFormData` record of `src/types/index.ts`. -/
structure SaleOrderFormData where
  customer_id : Int
  items : List OrderItem
  paid : Bool
  invoice_no : String
  invoice_date : String
deriving Repr, DecidableEq

/-- The type `OrderStatus = "active" | "completed"` of `src/types/index.ts`. -/
inductive OrderStatus where
  | active
  | completed
deriving Repr, DecidableEq

/-- The module-level mutable state of `src/api/index.ts`:
`mockSaleOrders`, `mockProducts`, `mockCustomers`. -/
structure Store where
  saleOrders : List SaleOrder
  products : List Product
  customers : List Customer
deriving Repr, DecidableEq

/-- Models `status === "completed" ? order.paid : !order.paid`
(the filter predicate of `getSaleOrders`). -/
def statusMatches (status : OrderStatus) (o : SaleOrder) : Bool :=
  match status with
  | .completed => o.paid
  | .active => !o.paid

/-- The comparator of `getSaleOrders`:
`(a, b) => new Date(b.last_modified).getTime() - new Date(a.last_modified).getTime()`,
i.e. `a` sorts no later than `b` iff `b.last_modified ≤ a.last_modified`
(descending). -/
def lmDesc (a b : SaleOrder) : Prop :=
  b.last_modified ≤ a.last_modified

instance : DecidableRel lmDesc := fun a b =>
  Nat.decLe b.last_modified a.last_modified

instance : IsTotal SaleOrder lmDesc :=
  ⟨fun a b => Nat.le_total b.last_modified a.last_modified⟩

instance : IsTrans SaleOrder lmDesc :=
  ⟨fun _ _ _ hab hbc => Nat.le_trans hbc hab⟩

/-- Models `Array.prototype.sort` with the descending-`last_modified` comparator.
JavaScript's sort is guaranteed stable (ES2019), so it is modelled by the
stable `insertionSort` under the comparator's preorder. -/
def sortByLastModifiedDesc (l : List SaleOrder) : List SaleOrder :=
  List.insertionSort lmDesc l

/-- Models `api.getSaleOrders`: filter by payment status, then sort by
`last_modified` descending (`src/api/index.ts`, lines 45-50). -/
def getSaleOrders (s : Store) (status : OrderStatus) : List SaleOrder :=
  sortByLastModifiedDesc (s.saleOrders.filter (statusMatches status))

/-- Models `products.find(p => p.sku.some(sku => sku.id === skuId))`:
the first product whose SKU collection contains `skuId`. -/
def findProductForSku (products : List Product) (skuId : Int) : Option Product :=
  products.find? (fun p => p.sku.any (fun sku => sku.id == skuId))

/-- Models `product?.name || "Unknown Product"`: JavaScript's `||` treats the empty
string as falsy, so a found product whose name is `""` also yields the
sentinel. -/
def resolveProductName (products : List Product) (skuId : Int) : String :=
  match findProductForSku products skuId with
  | none => "Unknown Product"
  | some product => if product.name = "" then "Unknown Product" else product.name

/-- The `orderData.items.map(...)` item-assembly step shared by
`createSaleOrder` and `updateSaleOrder`: attach the resolved product name. -/
def assembleItems (products : List Product) (items : List OrderItem) : List OrderItem :=
  items.map (fun item => { item with product_name := some (resolveProductName products item.sku_id) })

/-- Models `orderData.items.reduce((sum, item) => sum + (item.price * item.quantity), 0)`. -/
def totalPrice (items : List OrderItem) : Int :=
  items.foldl (fun sum item => sum + item.price * item.quantity) 0

/-- Models `Math.max(0, ...mockSaleOrders.map(order => order.id)) + 1`. -/
def nextOrderId (orders : List SaleOrder) : Int :=
  orders.foldl (fun m o => max m o.id) 0 + 1

/-- The inner SKU decrement of `createSaleOrder`: locate the first SKU with
the item's `sku_id` (`findIndex`) and subtract the ordered quantity from its
`quantity_in_inventory`; no match leaves the list unchanged (the
`skuIndex !== -1` guard). -/
def decSkuList (item : OrderItem) : List SKU → List SKU
  | [] => []
  | sku :: skus =>
    if sku.id == item.sku_id then
      { sku with quantity_in_inventory := sku.quantity_in_inventory - item.quantity } :: skus
    else
      sku :: decSkuList item skus

/-- One iteration of the `orderData.items.forEach(...)` inventory update of
`createSaleOrder`: locate the first product containing the item's `sku_id`
(`findIndex`) and decrement within it; no match (`productIndex === -1`)
leaves the catalog unchanged. -/
def decrementInventory (item : OrderItem) : List Product → List Product
  | [] => []
  | p :: ps =>
    if p.sku.any (fun sku => sku.id == item.sku_id) then
      { p with sku := decSkuList item p.sku } :: ps
    else
      p :: decrementInventory item ps

/-- The whole `orderData.items.forEach(...)` inventory update. -/
def applyInventoryDecrements (products : List Product) (items : List OrderItem) : List Product :=
  items.foldl (fun ps item => decrementInventory item ps) products

/-- Models `mockCustomers.find(c => c.customer_profile.id === orderData.customer_id)`. -/
def findCustomer (customers : List Customer) (customerId : Int) : Option Customer :=
  customers.find? (fun c => c.customer_profile.id == customerId)

/-- The `newOrder` record literal of `createSaleOrder`: next id, resolved
item names, computed total, both timestamps set to `now`. -/
def newOrderOf (s : Store) (now : Nat) (orderData : SaleOrderFormData)
    (customer : Customer) : SaleOrder :=
  { id := nextOrderId s.saleOrders
    customer_id := orderData.customer_id
    customer_name := customer.customer_profile.name
    items := assembleItems s.products orderData.items
    paid := orderData.paid
    invoice_no := orderData.invoice_no
    invoice_date := orderData.invoice_date
    created_at := now
    last_modified := now
    total_price := totalPrice orderData.items }

/-- Models `api.createSaleOrder` (`src/api/index.ts`, lines 52-101): resolve the
customer (throwing `"Customer not found"`), assemble the new order, push it,
then apply the inventory decrements. -/
def createSaleOrder (s : Store) (now : Nat) (orderData : SaleOrderFormData) :
    Except String SaleOrder × Store :=
  match findCustomer s.customers orderData.customer_id with
  | none => (.error "Customer not found", s)
  | some customer =>
    (.ok (newOrderOf s now orderData customer),
      { s with
        saleOrders := s.saleOrders ++ [newOrderOf s now orderData customer]
        products := applyInventoryDecrements s.products orderData.items })

/-- Models `mockSaleOrders.findIndex(order => order.id === id)`, returning `none`
for `-1`. -/
def findOrderIdx (orders : List SaleOrder) (id : Int) : Option Nat :=
  match orders with
  | [] => none
  | o :: os =>
    if o.id == id then some 0
    else (findOrderIdx os id).map (· + 1)

/-- In-place update of the element at an index (`mockSaleOrders[i] = ...`);
an out-of-range index changes nothing. -/
def modifyAt (f : α → α) : List α → Nat → List α
  | [], _ => []
  | x :: xs, 0 => f x :: xs
  | x :: xs, n + 1 => x :: modifyAt f xs n

/-- The `{...old, overrides}` record built by `updateSaleOrder`: the spread
preserves `id` and `created_at`; everything else is recomputed from the form
data. -/
def updatedOrderOf (s : Store) (now : Nat) (orderData : SaleOrderFormData)
    (customer : Customer) (old : SaleOrder) : SaleOrder :=
  { old with
    customer_id := orderData.customer_id
    customer_name := customer.customer_profile.name
    items := assembleItems s.products orderData.items
    paid := orderData.paid
    invoice_no := orderData.invoice_no
    invoice_date := orderData.invoice_date
    last_modified := now
    total_price := totalPrice orderData.items }

/-- Models `api.updateSaleOrder` (`src/api/index.ts`, lines 103-143): locate the
order (throwing `"Order not found"`), resolve the customer (throwing
`"Customer not found"`), then replace the stored order in place.  The catalog
is never touched. -/
def updateSaleOrder (s : Store) (now : Nat) (id : Int) (orderData : SaleOrderFormData) :
    Except String SaleOrder × Store :=
  match findOrderIdx s.saleOrders id with
  | none => (.error "Order not found", s)
  | some orderIndex =>
    match findCustomer s.customers orderData.customer_id with
    | none => (.error "Customer not found", s)
    | some customer =>
      (match s.saleOrders.get? orderIndex with
       | some old => .ok (updatedOrderOf s now orderData customer old)
       | none => .error "Order not found",
       { s with
         saleOrders :=
           modifyAt (fun old => updatedOrderOf s now orderData customer old)
             s.saleOrders orderIndex })

/-- The `{...old, paid: true, last_modified: now}` record built by
`markOrderAsPaid`. -/
def paidOrderOf (now : Nat) (old : SaleOrder) : SaleOrder :=
  { old with paid := true, last_modified := now }

/-- Models `api.markOrderAsPaid` (`src/api/index.ts`, lines 145-162): locate the
order (throwing `"Order not found"`), set `paid = true`, refresh
`last_modified`, leave everything else alone. -/
def markOrderAsPaid (s : Store) (now : Nat) (id : Int) :
    Except String SaleOrder × Store :=
  match findOrderIdx s.saleOrders id with
  | none => (.error "Order not found", s)
  | some orderIndex =>
    (match s.saleOrders.get? orderIndex with
     | some old => .ok (paidOrderOf now old)
     | none => .error "Order not found",
     { s with
       saleOrders := modifyAt (paidOrderOf now) s.saleOrders orderIndex })

/-- The inventory quantity the source would read for a SKU id: the first
matching SKU of the first product containing it. -/
def skuQty (products : List Product) (skuId : Int) : Option Int :=
  (findProductForSku products skuId).bind
    (fun p => (p.sku.find? (fun sku => sku.id == skuId)).map
      (fun sku => sku.quantity_in_inventory))

/-- Total quantity ordered for a given SKU id across an item list. -/
def sumQtyFor (items : List OrderItem) (skuId : Int) : Int :=
  ((items.filter (fun i => i.sku_id == skuId)).map (fun i => i.quantity)).sum

/-! ## Basic lemmas about the embedded operations -/

theorem foldl_add_price (l : List OrderItem) (a : Int) :
    l.foldl (fun sum item => sum + item.price * item.quantity) a
      = a + (l.map (fun i => i.price * i.quantity)).sum := by
  induction l generalizing a with
  | nil => simp
  | cons x xs ih => simp [ih, add_assoc]

/-- The source's `reduce` computes the mathematical sum of `price * quantity`. -/
theorem totalPrice_eq_sum (l : List OrderItem) :
    totalPrice l = (l.map (fun i => i.price * i.quantity)).sum := by
  simpa using foldl_add_price l 0

theorem modifyAt_get?_self {α : Type _} (f : α → α) (l : List α) (n : Nat) (a : α)
    (h : l.get? n = some a) : (modifyAt f l n).get? n = some (f a) := by
  induction l generalizing n with
  | nil => simp at h
  | cons x xs ih =>
    cases n with
    | zero => simp_all [modifyAt]
    | succ m => simpa [modifyAt] using ih m (by simpa using h)

theorem modifyAt_get?_ne {α : Type _} (f : α → α) (l : List α) (n m : Nat)
    (h : m ≠ n) : (modifyAt f l n).get? m = l.get? m := by
  induction l generalizing n m with
  | nil => simp [modifyAt]
  | cons x xs ih =>
    cases n with
    | zero =>
      cases m with
      | zero => exact absurd rfl h
      | succ k => simp [modifyAt]
    | succ n' =>
      cases m with
      | zero => simp [modifyAt]
      | succ k => simpa [modifyAt] using ih n' k (fun hk => h (by simp [hk]))

theorem modifyAt_of_get?_none {α : Type _} (f : α → α) (l : List α) (n : Nat)
    (h : l.get? n = none) : modifyAt f l n = l := by
  induction l generalizing n with
  | nil => simp [modifyAt]
  | cons x xs ih =>
    cases n with
    | zero => simp at h
    | succ m => simpa [modifyAt] using ih m (by simpa using h)

theorem map_modifyAt {α β : Type _} (g : α → β) (f : α → α) (l : List α) (n : Nat)
    (hf : ∀ x, g (f x) = g x) : (modifyAt f l n).map g = l.map g := by
  induction l generalizing n with
  | nil => simp [modifyAt]
  | cons x xs ih =>
    cases n with
    | zero => simp [modifyAt, hf]
    | succ m => simp [modifyAt, ih]

theorem mem_modifyAt_of_get? {α : Type _} (f : α → α) (l : List α) (n : Nat) (a : α)
    (h : l.get? n = some a) : f a ∈ modifyAt f l n :=
  List.get?_mem (modifyAt_get?_self f l n a h)

theorem findOrderIdx_eq_none_iff (orders : List SaleOrder) (id : Int) :
    findOrderIdx orders id = none ↔ ∀ o ∈ orders, o.id ≠ id := by
  induction orders with
  | nil => simp [findOrderIdx]
  | cons o os ih =>
    by_cases h : o.id = id
    · simp [findOrderIdx, h]
    · simp [findOrderIdx, h, ih]

theorem findOrderIdx_some (orders : List SaleOrder) (id : Int) (j : Nat)
    (h : findOrderIdx orders id = some j) :
    ∃ old, orders.get? j = some old ∧ old.id = id := by
  induction orders generalizing j with
  | nil => simp [findOrderIdx] at h
  | cons o os ih =>
    by_cases ho : o.id = id
    · simp [findOrderIdx, ho] at h
      exact ⟨o, by simp [← h], ho⟩
    · simp [findOrderIdx, ho] at h
      obtain ⟨j', hj', rfl⟩ := h
      obtain ⟨old, h1, h2⟩ := ih j' hj'
      exact ⟨old, by simpa using h1, h2⟩

theorem findCustomer_eq_none_iff (customers : List Customer) (cid : Int) :
    findCustomer customers cid = none
      ↔ ∀ c ∈ customers, c.customer_profile.id ≠ cid := by
  simp [findCustomer, List.find?_eq_none]

theorem createSaleOrder_of_find_none {s : Store} {now : Nat} {d : SaleOrderFormData}
    (h : findCustomer s.customers d.customer_id = none) :
    createSaleOrder s now d = (.error "Customer not found", s) := by
  simp [createSaleOrder, h]

theorem createSaleOrder_of_find_some {s : Store} {now : Nat} {d : SaleOrderFormData}
    {c : Customer} (h : findCustomer s.customers d.customer_id = some c) :
    createSaleOrder s now d =
      (.ok (newOrderOf s now d c),
        { s with
          saleOrders := s.saleOrders ++ [newOrderOf s now d c]
          products := applyInventoryDecrements s.products d.items }) := by
  simp [createSaleOrder, h]

theorem updateSaleOrder_of_idx_none {s : Store} {now : Nat} {id : Int}
    {d : SaleOrderFormData} (h : findOrderIdx s.saleOrders id = none) :
    updateSaleOrder s now id d = (.error "Order not found", s) := by
  simp [updateSaleOrder, h]

theorem updateSaleOrder_of_find_none {s : Store} {now : Nat} {id : Int}
    {d : SaleOrderFormData} {j : Nat} (hj : findOrderIdx s.saleOrders id = some j)
    (h : findCustomer s.customers d.customer_id = none) :
    updateSaleOrder s now id d = (.error "Customer not found", s) := by
  simp [updateSaleOrder, hj, h]

theorem updateSaleOrder_of_find_some {s : Store} {now : Nat} {id : Int}
    {d : SaleOrderFormData} {j : Nat} {c : Customer} {old : SaleOrder}
    (hj : findOrderIdx s.saleOrders id = some j)
    (hc : findCustomer s.customers d.customer_id = some c)
    (hold : s.saleOrders.get? j = some old) :
    updateSaleOrder s now id d =
      (.ok (updatedOrderOf s now d c old),
        { s with
          saleOrders := modifyAt (fun o => updatedOrderOf s now d c o) s.saleOrders j }) := by
  simp [updateSaleOrder, hj, hc, ← List.get?_eq_getElem?, hold]

theorem markOrderAsPaid_of_idx_none {s : Store} {now : Nat} {id : Int}
    (h : findOrderIdx s.saleOrders id = none) :
    markOrderAsPaid s now id = (.error "Order not found", s) := by
  simp [markOrderAsPaid, h]

theorem markOrderAsPaid_of_idx_some {s : Store} {now : Nat} {id : Int} {j : Nat}
    {old : SaleOrder} (hj : findOrderIdx s.saleOrders id = some j)
    (hold : s.saleOrders.get? j = some old) :
    markOrderAsPaid s now id =
      (.ok (paidOrderOf now old),
        { s with saleOrders := modifyAt (paidOrderOf now) s.saleOrders j }) := by
  simp [markOrderAsPaid, hj, ← List.get?_eq_getElem?, hold]

theorem createSaleOrder_snd_products (s : Store) (now : Nat) (d : SaleOrderFormData) :
    (createSaleOrder s now d).2.products = applyInventoryDecrements s.products d.items
    ∨ (createSaleOrder s now d).2 = s := by
  cases h : findCustomer s.customers d.customer_id with
  | none => exact Or.inr (by simp [createSaleOrder_of_find_none h])
  | some c => exact Or.inl (by simp [createSaleOrder_of_find_some h])

/-- Lemma: `updateSaleOrder` never touches the catalog or the customer list. -/
theorem updateSaleOrder_products_customers (s : Store) (now : Nat) (id : Int)
    (d : SaleOrderFormData) :
    (updateSaleOrder s now id d).2.products = s.products
    ∧ (updateSaleOrder s now id d).2.customers = s.customers := by
  cases hj : findOrderIdx s.saleOrders id with
  | none => simp [updateSaleOrder_of_idx_none hj]
  | some j =>
    cases hc : findCustomer s.customers d.customer_id with
    | none => simp [updateSaleOrder_of_find_none hj hc]
    | some c => simp [updateSaleOrder, hj, hc]

/-- Lemma: `markOrderAsPaid` never touches the catalog or the customer list. -/
theorem markOrderAsPaid_products_customers (s : Store) (now : Nat) (id : Int) :
    (markOrderAsPaid s now id).2.products = s.products
    ∧ (markOrderAsPaid s now id).2.customers = s.customers := by
  cases hj : findOrderIdx s.saleOrders id with
  | none => simp [markOrderAsPaid_of_idx_none hj]
  | some j => simp [markOrderAsPaid, hj]

/-! ## Stability of the sort of `getSaleOrders` -/

/-- Inserting an order into a descending run puts it after every order with
the same `last_modified`: restricted to one timestamp, insertion appends. -/
theorem filter_orderedInsert_lm (x : SaleOrder) (l : List SaleOrder) (t : Nat) :
    (List.orderedInsert lmDesc x l).filter (fun o => o.last_modified == t)
      = if x.last_modified = t
        then x :: l.filter (fun o => o.last_modified == t)
        else l.filter (fun o => o.last_modified == t) := by
  induction l with
  | nil =>
    by_cases h : x.last_modified = t <;> simp [List.orderedInsert, h]
  | cons y ys ih =>
    by_cases hr : lmDesc x y
    · by_cases h : x.last_modified = t <;>
        simp [List.orderedInsert, if_pos hr, h]
    · have hgt : x.last_modified < y.last_modified := Nat.lt_of_not_le hr
      by_cases h : x.last_modified = t
      · have hy : ¬ y.last_modified = t := by
          subst h
          exact ne_of_gt hgt
        simp [List.orderedInsert, if_neg hr, hy, ih, h]
      · by_cases hy : y.last_modified = t <;>
          simp [List.orderedInsert, if_neg hr, hy, ih, h]

/-- Stability of the modelled sort: within each `last_modified` value the
input (insertion) order is preserved. -/
theorem filter_sortByLastModifiedDesc (l : List SaleOrder) (t : Nat) :
    (sortByLastModifiedDesc l).filter (fun o => o.last_modified == t)
      = l.filter (fun o => o.last_modified == t) := by
  induction l with
  | nil => rfl
  | cons x xs ih =>
    have hstep : sortByLastModifiedDesc (x :: xs)
        = List.orderedInsert lmDesc x (sortByLastModifiedDesc xs) := rfl
    rw [hstep, filter_orderedInsert_lm]
    by_cases h : x.last_modified = t <;> simp [h, ih]

theorem sortByLastModifiedDesc_perm (l : List SaleOrder) :
    List.Perm (sortByLastModifiedDesc l) l :=
  List.perm_insertionSort lmDesc l

theorem sortByLastModifiedDesc_sorted (l : List SaleOrder) :
    (sortByLastModifiedDesc l).Pairwise
      (fun a b => b.last_modified ≤ a.last_modified) :=
  List.sorted_insertionSort lmDesc l

/-- Claim C2. `getSaleOrders status` returns exactly the orders with
`paid == false` for `active` and `paid == true` for `completed` (the two
results partition the store), ordered by `last_modified` descending, ties in
the orders' original (insertion) order. -/
theorem getSaleOrders_spec (s : Store) :
    (∀ o, o ∈ getSaleOrders s .active ↔ o ∈ s.saleOrders ∧ o.paid = false)
    ∧ (∀ o, o ∈ getSaleOrders s .completed ↔ o ∈ s.saleOrders ∧ o.paid = true)
    ∧ List.Perm (getSaleOrders s .active ++ getSaleOrders s .completed) s.saleOrders
    ∧ (∀ status, (getSaleOrders s status).Pairwise
        (fun a b => b.last_modified ≤ a.last_modified))
    ∧ (∀ status, List.Perm (getSaleOrders s status) (s.saleOrders.filter (statusMatches status)))
    ∧ (∀ status t, (getSaleOrders s status).filter (fun o => o.last_modified == t)
        = (s.saleOrders.filter (statusMatches status)).filter
            (fun o => o.last_modified == t)) := by
  have hperm : ∀ status, List.Perm (getSaleOrders s status) (s.saleOrders.filter (statusMatches status)) :=
    fun status => sortByLastModifiedDesc_perm _
  refine ⟨?_, ?_, ?_, ?_, hperm, ?_⟩
  · intro o
    rw [(hperm .active).mem_iff, List.mem_filter]
    simp [statusMatches]
  · intro o
    rw [(hperm .completed).mem_iff, List.mem_filter]
    simp [statusMatches]
  · refine ((hperm .active).append (hperm .completed)).trans ?_
    have h := List.filter_append_perm (fun o : SaleOrder => o.paid) s.saleOrders
    refine List.Perm.trans ?_ (List.perm_append_comm.trans h)
    exact List.Perm.rfl
  · intro status
    exact sortByLastModifiedDesc_sorted _
  · intro status t
    exact filter_sortByLastModifiedDesc _ t

/-! ## Concrete fixture data (the scenario of spec §8) -/

def wProfile : CustomerProfile :=
  { id := 1, name := "Alice", color := [], email := "a@b.c", pincode := "",
    location_name := "", type := "", profile_pic := none, gst := "" }

def wCustomer : Customer :=
  { id := 99, customer := 7, customer_profile := wProfile }

def wSku : SKU :=
  { id := 10, selling_price := 100, max_retail_price := 120, amount := 1,
    unit := "pc", quantity_in_inventory := 50, product := 1 }

def wProduct : Product :=
  { id := 1, display_id := 1, owner := 0, name := "Widget", category := "",
    characteristics := "", features := "", brand := "", sku := [wSku],
    updated_on := "", adding_date := "" }

def wOrder : SaleOrder :=
  { id := 1, customer_id := 1, customer_name := "Alice", items := [],
    paid := false, invoice_no := "INV-0", invoice_date := "2024-01-01",
    created_at := 0, last_modified := 0, total_price := 0 }

def wStore : Store :=
  { saleOrders := [wOrder], products := [wProduct], customers := [wCustomer] }

def wForm : SaleOrderFormData :=
  { customer_id := 1, items := [{ sku_id := 10, price := 100, quantity := 3 }],
    paid := false, invoice_no := "INV-1", invoice_date := "2024-01-02" }

/-- Extract the order out of a successful result (a default otherwise). -/
def okOrResult (r : Except String SaleOrder) : SaleOrder :=
  match r with
  | .ok o => o
  | .error _ => default

/-! ## C5: product-name resolution -/

/-- A product that owns SKU 10 but whose display name is the empty string. -/
def cProduct : Product :=
  { wProduct with name := "" }

def cStore : Store :=
  { saleOrders := [], products := [cProduct], customers := [wCustomer] }

/-- Counterexample to C5 as stated: the catalog `[cProduct]` does contain a
product owning SKU 10, yet the created item's `product_name` is the sentinel
`"Unknown Product"` — because the source computes
`product?.name || "Unknown Product"` and the found name `""` is falsy.  So
the sentinel does not appear *exactly* when no product contains the
`sku_id`. -/
theorem unknown_product_name_counterexample :
    ((okOrResult (createSaleOrder cStore 0 wForm).1).items.map
        (fun it => it.product_name)) = [some "Unknown Product"]
    ∧ (cStore.products.any (fun p => p.sku.any (fun sku => sku.id == (10 : Int)))) = true
    ∧ (wForm.items.map (fun it => it.sku_id)) = [(10 : Int)] := by
  exact ⟨rfl, rfl, rfl⟩

/-- Claim C5, amended. During item assembly each item's `product_name` is
taken from the first product whose SKU collection contains the item's
`sku_id`: it is that product's name when the name is non-empty, and the
sentinel `"Unknown Product"` when no product contains the `sku_id` *or when
the matching product's name is the empty string* (the source's `||` treats
`""` as falsy); prices and quantities are passed through unchanged, and an
unresolved `sku_id` never makes the operation fail. -/
theorem unknown_product_name_amended (s s' : Store) (now : Nat)
    (d d' : SaleOrderFormData) (oid : Int) (o o2 : SaleOrder) (s1 s2 : Store)
    (hc : createSaleOrder s now d = (.ok o, s1))
    (hu : updateSaleOrder s' now oid d' = (.ok o2, s2)) :
    (o.items.map (fun it => (it.sku_id, it.price, it.quantity))
        = d.items.map (fun it => (it.sku_id, it.price, it.quantity)))
    ∧ (o.items.map (fun it => it.product_name)
        = d.items.map (fun it => some (resolveProductName s.products it.sku_id)))
    ∧ (o2.items.map (fun it => it.product_name)
        = d'.items.map (fun it => some (resolveProductName s'.products it.sku_id)))
    ∧ (∀ ps sid, findProductForSku ps sid = none
        → resolveProductName ps sid = "Unknown Product")
    ∧ (∀ ps sid p, findProductForSku ps sid = some p → p.name ≠ ""
        → resolveProductName ps sid = p.name)
    ∧ (∀ ps sid p, findProductForSku ps sid = some p → p.name = ""
        → resolveProductName ps sid = "Unknown Product")
    ∧ (∀ d2, (∃ c ∈ s.customers, c.customer_profile.id = d2.customer_id)
        → ∃ o' s'', createSaleOrder s now d2 = (.ok o', s'')) := by
  have hoitems : o.items = assembleItems s.products d.items := by
    cases hfc : findCustomer s.customers d.customer_id with
    | none => rw [createSaleOrder_of_find_none hfc] at hc; simp at hc
    | some c =>
      rw [createSaleOrder_of_find_some hfc] at hc
      simp only [Prod.mk.injEq, Except.ok.injEq] at hc
      rw [← hc.1]
      rfl
  have ho2items : o2.items = assembleItems s'.products d'.items := by
    cases hj : findOrderIdx s'.saleOrders oid with
    | none => rw [updateSaleOrder_of_idx_none hj] at hu; simp at hu
    | some j =>
      obtain ⟨old, hold, -⟩ := findOrderIdx_some _ _ _ hj
      cases hfc : findCustomer s'.customers d'.customer_id with
      | none => rw [updateSaleOrder_of_find_none hj hfc] at hu; simp at hu
      | some c =>
        rw [updateSaleOrder_of_find_some hj hfc hold] at hu
        simp only [Prod.mk.injEq, Except.ok.injEq] at hu
        rw [← hu.1]
        rfl
  refine ⟨?_, ?_, ?_, ?_, ?_, ?_, ?_⟩
  · rw [hoitems]
    simp [assembleItems]
  · rw [hoitems]
    simp [assembleItems]
  · rw [ho2items]
    simp [assembleItems]
  · intro ps sid h
    rw [resolveProductName, h]
  · intro ps sid p h hne
    rw [resolveProductName, h]
    simp [hne]
  · intro ps sid p h he
    rw [resolveProductName, h]
    simp [he]
  · intro d2 hex
    cases hfc : findCustomer s.customers d2.customer_id with
    | none =>
      obtain ⟨c, hcm, hcid⟩ := hex
      exact absurd hcid ((findCustomer_eq_none_iff _ _).mp hfc c hcm)
    | some c =>
      exact ⟨_, _, createSaleOrder_of_find_some hfc⟩

/-- Witness for the amended C5 on the fixture store. -/
theorem unknown_product_name_amended_witness :
    (okOrResult (createSaleOrder wStore 5 wForm).1).items.map
        (fun it => it.product_name)
      = wForm.items.map (fun it => some (resolveProductName wStore.products it.sku_id))
    ∧ (okOrResult (updateSaleOrder wStore 5 1 wForm).1).items.map
        (fun it => it.product_name)
      = wForm.items.map (fun it => some (resolveProductName wStore.products it.sku_id)) := by
  have h := unknown_product_name_amended wStore wStore 5 wForm wForm 1
    (okOrResult (createSaleOrder wStore 5 wForm).1)
    (okOrResult (updateSaleOrder wStore 5 1 wForm).1)
    (createSaleOrder wStore 5 wForm).2
    (updateSaleOrder wStore 5 1 wForm).2
    rfl rfl
  exact ⟨h.2.1, h.2.2.1⟩

/-! ## C6: the not-found failures, exactly characterised -/

/-- Claim C6. `updateSaleOrder` and `markOrderAsPaid` fail with
`"Order not found"` exactly when no stored order has the given id;
`createSaleOrder` fails with `"Customer not found"` exactly when no
customer's profile id matches, and `updateSaleOrder` does so exactly when
the order exists but no customer's profile id matches. -/
theorem not_found_errors (s : Store) (now : Nat) (d : SaleOrderFormData)
    (oid mid : Int) :
    (((updateSaleOrder s now oid d).1 = .error "Order not found")
        ↔ ∀ o ∈ s.saleOrders, o.id ≠ oid)
    ∧ (((markOrderAsPaid s now mid).1 = .error "Order not found")
        ↔ ∀ o ∈ s.saleOrders, o.id ≠ mid)
    ∧ (((createSaleOrder s now d).1 = .error "Customer not found")
        ↔ ∀ c ∈ s.customers, c.customer_profile.id ≠ d.customer_id)
    ∧ (((updateSaleOrder s now oid d).1 = .error "Customer not found")
        ↔ ((∃ o ∈ s.saleOrders, o.id = oid)
            ∧ ∀ c ∈ s.customers, c.customer_profile.id ≠ d.customer_id)) := by
  refine ⟨?_, ?_, ?_, ?_⟩
  · constructor
    · intro h
      cases hj : findOrderIdx s.saleOrders oid with
      | none => exact (findOrderIdx_eq_none_iff _ _).mp hj
      | some j =>
        exfalso
        obtain ⟨old, hold, -⟩ := findOrderIdx_some _ _ _ hj
        cases hfc : findCustomer s.customers d.customer_id with
        | none => rw [updateSaleOrder_of_find_none hj hfc] at h; simp at h
        | some c => rw [updateSaleOrder_of_find_some hj hfc hold] at h; simp at h
    · intro hall
      rw [updateSaleOrder_of_idx_none ((findOrderIdx_eq_none_iff _ _).mpr hall)]
  · constructor
    · intro h
      cases hj : findOrderIdx s.saleOrders mid with
      | none => exact (findOrderIdx_eq_none_iff _ _).mp hj
      | some j =>
        exfalso
        obtain ⟨old, hold, -⟩ := findOrderIdx_some _ _ _ hj
        rw [markOrderAsPaid_of_idx_some hj hold] at h
        simp at h
    · intro hall
      rw [markOrderAsPaid_of_idx_none ((findOrderIdx_eq_none_iff _ _).mpr hall)]
  · cases hfc : findCustomer s.customers d.customer_id with
    | none =>
      refine iff_of_true ?_ ((findCustomer_eq_none_iff _ _).mp hfc)
      rw [createSaleOrder_of_find_none hfc]
    | some c =>
      refine iff_of_false ?_ ?_
      · rw [createSaleOrder_of_find_some hfc]; simp
      · intro hall
        have hpred := List.find?_some hfc
        have hmem := List.mem_of_find?_eq_some hfc
        rw [beq_iff_eq] at hpred
        exact hall c hmem hpred
  · cases hj : findOrderIdx s.saleOrders oid with
    | none =>
      refine iff_of_false ?_ ?_
      · rw [updateSaleOrder_of_idx_none hj]; simp
      · rintro ⟨⟨o, ho, hoid⟩, -⟩
        exact (findOrderIdx_eq_none_iff _ _).mp hj o ho hoid
    | some j =>
      obtain ⟨old, hold, holdid⟩ := findOrderIdx_some _ _ _ hj
      cases hfc : findCustomer s.customers d.customer_id with
      | none =>
        refine iff_of_true ?_ ?_
        · rw [updateSaleOrder_of_find_none hj hfc]
        · exact ⟨⟨old, List.get?_mem hold, holdid⟩, (findCustomer_eq_none_iff _ _).mp hfc⟩
      | some c =>
        refine iff_of_false ?_ ?_
        · rw [updateSaleOrder_of_find_some hj hfc hold]; simp
        · rintro ⟨-, hall⟩
          have hpred := List.find?_some hfc
          have hmem := List.mem_of_find?_eq_some hfc
          rw [beq_iff_eq] at hpred
          exact hall c hmem hpred

/-! ## C7: the mark-paid frame -/

/-- Claim C7. `markOrderAsPaid` sets `paid := true`, refreshes `last_modified`,
leaves every other field of the target order and every other stored order
(and the catalog and customers) unchanged, and on an already-paid order
changes nothing but `last_modified`. -/
theorem markOrderAsPaid_frame (s : Store) (now : Nat) (mid : Int)
    (o : SaleOrder) (s' : Store) (j : Nat) (old : SaleOrder)
    (hj : findOrderIdx s.saleOrders mid = some j)
    (hold : s.saleOrders.get? j = some old)
    (hm : markOrderAsPaid s now mid = (.ok o, s')) :
    o.paid = true ∧ o.last_modified = now
    ∧ o.id = old.id ∧ o.customer_id = old.customer_id
    ∧ o.customer_name = old.customer_name ∧ o.items = old.items
    ∧ o.invoice_no = old.invoice_no ∧ o.invoice_date = old.invoice_date
    ∧ o.created_at = old.created_at ∧ o.total_price = old.total_price
    ∧ s'.saleOrders.get? j = some o
    ∧ (∀ k, k ≠ j → s'.saleOrders.get? k = s.saleOrders.get? k)
    ∧ s'.products = s.products ∧ s'.customers = s.customers
    ∧ (old.paid = true → o = { old with last_modified := now }) := by
  rw [markOrderAsPaid_of_idx_some hj hold] at hm
  simp only [Prod.mk.injEq, Except.ok.injEq] at hm
  obtain ⟨ho, hs⟩ := hm
  subst ho
  refine ⟨rfl, rfl, rfl, rfl, rfl, rfl, rfl, rfl, rfl, rfl, ?_, ?_, ?_, ?_, ?_⟩
  · rw [← hs]
    exact modifyAt_get?_self _ _ _ _ hold
  · intro k hk
    rw [← hs]
    exact modifyAt_get?_ne _ _ _ _ hk
  · rw [← hs]
  · rw [← hs]
  · intro hpaid
    cases old
    simp only [paidOrderOf] at hpaid ⊢
    rw [hpaid]

/-- Witness for C7 on the fixture store (order id 1 at index 0). -/
theorem markOrderAsPaid_frame_witness :
    (okOrResult (markOrderAsPaid wStore 5 1).1).paid = true
    ∧ (okOrResult (markOrderAsPaid wStore 5 1).1).last_modified = 5
    ∧ (okOrResult (markOrderAsPaid wStore 5 1).1).total_price = wOrder.total_price
    ∧ (markOrderAsPaid wStore 5 1).2.products = wStore.products := by
  have h := markOrderAsPaid_frame wStore 5 1
    (okOrResult (markOrderAsPaid wStore 5 1).1)
    (markOrderAsPaid wStore 5 1).2 0 wOrder rfl rfl rfl
  exact ⟨h.1, h.2.1, h.2.2.2.2.2.2.2.2.2.1, h.2.2.2.2.2.2.2.2.2.2.2.2.1⟩

/-! ## C10: customer resolution goes through the embedded profile id -/

theorem findOrderIdx_ne_none (orders : List SaleOrder) (id : Int)
    (h : ∃ o ∈ orders, o.id = id) : findOrderIdx orders id ≠ none := by
  intro hn
  obtain ⟨o, ho, hoid⟩ := h
  exact (findOrderIdx_eq_none_iff _ _).mp hn o ho hoid

/-- Claim C10. The `customer_id` of a create/update call is matched against
each customer's embedded `customer_profile.id` (never the `Customer`'s own
`id` or `customer` fields), and the stored `customer_name` is the matched
profile's `name`; a `customer_id` equal to some `Customer.id` but to no
profile id still fails with `"Customer not found"`. -/
theorem customer_resolution_spec (s s' : Store) (now : Nat) (d d' : SaleOrderFormData)
    (oid oid' : Int) (c : Customer) (o o2 : SaleOrder) (s1 s2 : Store)
    (_hcid : ∃ c' ∈ s.customers, c'.id = d.customer_id)
    (hprof : ∀ c' ∈ s.customers, c'.customer_profile.id ≠ d.customer_id)
    (hfind : findCustomer s'.customers d'.customer_id = some c)
    (hc : createSaleOrder s' now d' = (.ok o, s1))
    (hu : updateSaleOrder s' now oid' d' = (.ok o2, s2)) :
    (createSaleOrder s now d).1 = .error "Customer not found"
    ∧ ((∃ om ∈ s.saleOrders, om.id = oid)
        → (updateSaleOrder s now oid d).1 = .error "Customer not found")
    ∧ o.customer_name = c.customer_profile.name
    ∧ o2.customer_name = c.customer_profile.name := by
  have hnone : findCustomer s.customers d.customer_id = none :=
    (findCustomer_eq_none_iff _ _).mpr hprof
  refine ⟨?_, ?_, ?_, ?_⟩
  · rw [createSaleOrder_of_find_none hnone]
  · intro hex
    cases hj : findOrderIdx s.saleOrders oid with
    | none => exact absurd hj (findOrderIdx_ne_none _ _ hex)
    | some j => rw [updateSaleOrder_of_find_none hj hnone]
  · rw [createSaleOrder_of_find_some hfind] at hc
    simp only [Prod.mk.injEq, Except.ok.injEq] at hc
    rw [← hc.1]
    rfl
  · cases hj : findOrderIdx s'.saleOrders oid' with
    | none => rw [updateSaleOrder_of_idx_none hj] at hu; simp at hu
    | some j =>
      obtain ⟨old, hold, -⟩ := findOrderIdx_some _ _ _ hj
      rw [updateSaleOrder_of_find_some hj hfind hold] at hu
      simp only [Prod.mk.injEq, Except.ok.injEq] at hu
      rw [← hu.1]
      rfl

/-- A customer whose record id (99) differs from its profile id (1):
querying 99 must fail even though `Customer.id = 99` exists. -/
def wMismatchForm : SaleOrderFormData :=
  { wForm with customer_id := 99 }

/-- Witness for C10: `customer_id = 99` matches `wCustomer.id` but no
profile id, so create fails; with `customer_id = 1` the stored name is the
profile's name. -/
theorem customer_resolution_spec_witness :
    (createSaleOrder wStore 5 wMismatchForm).1 = .error "Customer not found"
    ∧ (okOrResult (createSaleOrder wStore 5 wForm).1).customer_name
        = wCustomer.customer_profile.name
    ∧ (okOrResult (updateSaleOrder wStore 5 1 wForm).1).customer_name
        = wCustomer.customer_profile.name := by
  have h := customer_resolution_spec wStore wStore 5 wMismatchForm wForm 1 1 wCustomer
    (okOrResult (createSaleOrder wStore 5 wForm).1)
    (okOrResult (updateSaleOrder wStore 5 1 wForm).1)
    (createSaleOrder wStore 5 wForm).2
    (updateSaleOrder wStore 5 1 wForm).2
    ⟨wCustomer, by simp [wStore], rfl⟩
    (by decide)
    rfl rfl rfl
  exact ⟨h.1, h.2.2.1, h.2.2.2⟩

/-! ## C1: total price -/

/-- Claim C1. Every order returned by `createSaleOrder` or `updateSaleOrder`
(and the stored order afterwards) has `total_price` equal to the sum of
`price * quantity` over the submitted items (`0` for an empty item list,
since the sum over `[]` is `0`), and `markOrderAsPaid` never changes any
stored order's `total_price` — it is set nowhere else. -/
theorem total_price_eq_sum_of_items (s : Store) (now : Nat) (d d2 : SaleOrderFormData)
    (oid : Int) (o o2 : SaleOrder) (s1 s2 : Store)
    (hc : createSaleOrder s now d = (.ok o, s1))
    (hu : updateSaleOrder s now oid d2 = (.ok o2, s2)) :
    o.total_price = (d.items.map (fun i => i.price * i.quantity)).sum
    ∧ o ∈ s1.saleOrders
    ∧ o2.total_price = (d2.items.map (fun i => i.price * i.quantity)).sum
    ∧ o2 ∈ s2.saleOrders
    ∧ ∀ mid, ((markOrderAsPaid s now mid).2.saleOrders.map SaleOrder.total_price)
        = s.saleOrders.map SaleOrder.total_price := by
  refine ⟨?_, ?_, ?_, ?_, ?_⟩
  · cases hfc : findCustomer s.customers d.customer_id with
    | none => rw [createSaleOrder_of_find_none hfc] at hc; simp at hc
    | some c =>
      rw [createSaleOrder_of_find_some hfc] at hc
      simp only [Prod.mk.injEq, Except.ok.injEq] at hc
      rw [← hc.1]
      exact totalPrice_eq_sum d.items
  · cases hfc : findCustomer s.customers d.customer_id with
    | none => rw [createSaleOrder_of_find_none hfc] at hc; simp at hc
    | some c =>
      rw [createSaleOrder_of_find_some hfc] at hc
      simp only [Prod.mk.injEq, Except.ok.injEq] at hc
      rw [← hc.1, ← hc.2]
      exact List.mem_append_right _ (List.mem_singleton_self _)
  · cases hj : findOrderIdx s.saleOrders oid with
    | none => rw [updateSaleOrder_of_idx_none hj] at hu; simp at hu
    | some j =>
      obtain ⟨old, hold, -⟩ := findOrderIdx_some _ _ _ hj
      cases hfc : findCustomer s.customers d2.customer_id with
      | none => rw [updateSaleOrder_of_find_none hj hfc] at hu; simp at hu
      | some c =>
        rw [updateSaleOrder_of_find_some hj hfc hold] at hu
        simp only [Prod.mk.injEq, Except.ok.injEq] at hu
        rw [← hu.1]
        exact totalPrice_eq_sum d2.items
  · cases hj : findOrderIdx s.saleOrders oid with
    | none => rw [updateSaleOrder_of_idx_none hj] at hu; simp at hu
    | some j =>
      obtain ⟨old, hold, -⟩ := findOrderIdx_some _ _ _ hj
      cases hfc : findCustomer s.customers d2.customer_id with
      | none => rw [updateSaleOrder_of_find_none hj hfc] at hu; simp at hu
      | some c =>
        rw [updateSaleOrder_of_find_some hj hfc hold] at hu
        simp only [Prod.mk.injEq, Except.ok.injEq] at hu
        rw [← hu.1, ← hu.2]
        exact mem_modifyAt_of_get? _ _ _ _ hold
  · intro mid
    cases hj : findOrderIdx s.saleOrders mid with
    | none => rw [markOrderAsPaid_of_idx_none hj]
    | some j =>
      have h2 : (markOrderAsPaid s now mid).2.saleOrders
          = modifyAt (paidOrderOf now) s.saleOrders j := by
        simp [markOrderAsPaid, hj]
      rw [h2]
      exact map_modifyAt _ _ _ _ (fun x => rfl)

/-- Witness for C1: the fixture create and update both succeed and the
conclusions hold there. -/
theorem total_price_eq_sum_of_items_witness :
    (okOrResult (createSaleOrder wStore 5 wForm).1).total_price
        = (wForm.items.map (fun i => i.price * i.quantity)).sum
    ∧ okOrResult (createSaleOrder wStore 5 wForm).1
        ∈ (createSaleOrder wStore 5 wForm).2.saleOrders
    ∧ (okOrResult (updateSaleOrder wStore 5 1 wForm).1).total_price
        = (wForm.items.map (fun i => i.price * i.quantity)).sum
    ∧ okOrResult (updateSaleOrder wStore 5 1 wForm).1
        ∈ (updateSaleOrder wStore 5 1 wForm).2.saleOrders := by
  have h := total_price_eq_sum_of_items wStore 5 wForm wForm 1
    (okOrResult (createSaleOrder wStore 5 wForm).1)
    (okOrResult (updateSaleOrder wStore 5 1 wForm).1)
    (createSaleOrder wStore 5 wForm).2
    (updateSaleOrder wStore 5 1 wForm).2
    rfl rfl
  exact ⟨h.1, h.2.1, h.2.2.1, h.2.2.2.1⟩

/-! ## C3: inventory decrements -/

/-- Decrementing a quantity does not change which SKU ids appear. -/
theorem decSkuList_any (item : OrderItem) (skus : List SKU) (x : Int) :
    (decSkuList item skus).any (fun sku => sku.id == x)
      = skus.any (fun sku => sku.id == x) := by
  induction skus with
  | nil => rfl
  | cons sku skus ih =>
    by_cases h : sku.id == item.sku_id <;> simp [decSkuList, h, ih]

/-- Looking up the decremented id finds the first matching SKU with its
quantity reduced. -/
theorem find?_decSkuList_self (item : OrderItem) (skus : List SKU) :
    (decSkuList item skus).find? (fun sku => sku.id == item.sku_id)
      = (skus.find? (fun sku => sku.id == item.sku_id)).map
          (fun sku =>
            { sku with quantity_in_inventory := sku.quantity_in_inventory - item.quantity }) := by
  induction skus with
  | nil => rfl
  | cons sku skus ih =>
    by_cases h : sku.id == item.sku_id
    · simp [decSkuList, h, List.find?_cons_of_pos, ih]
    · simp [decSkuList, h, List.find?_cons_of_neg, ih]

/-- Looking up any other id is unaffected by the decrement. -/
theorem find?_decSkuList_ne (item : OrderItem) (skus : List SKU) (sid : Int)
    (hne : sid ≠ item.sku_id) :
    (decSkuList item skus).find? (fun sku => sku.id == sid)
      = skus.find? (fun sku => sku.id == sid) := by
  induction skus with
  | nil => rfl
  | cons sku skus ih =>
    by_cases h : sku.id == item.sku_id
    · have hsid : ¬ (sku.id == sid) = true := by
        simp only [beq_iff_eq] at h ⊢
        rw [h]
        exact fun hx => hne hx.symm
      simp [decSkuList, h, List.find?_cons_of_neg, hsid]
    · by_cases hs : sku.id == sid
      · simp [decSkuList, h, List.find?_cons_of_pos, hs]
      · simp [decSkuList, h, List.find?_cons_of_neg, hs, ih]

theorem skuQty_cons (p : Product) (ps : List Product) (sid : Int) :
    skuQty (p :: ps) sid
      = if p.sku.any (fun sku => sku.id == sid)
        then (p.sku.find? (fun sku => sku.id == sid)).map
          (fun sku => sku.quantity_in_inventory)
        else skuQty ps sid := by
  by_cases h : p.sku.any (fun sku => sku.id == sid)
  · simp [skuQty, findProductForSku, List.find?_cons_of_pos, h]
  · simp [skuQty, findProductForSku, List.find?_cons_of_neg, h]

/-- Effect of one item's decrement on the readable quantity of any SKU id:
the item's own id (when resolvable) drops by the item's quantity, every other
id is untouched. -/
theorem skuQty_decrementInventory (item : OrderItem) (ps : List Product) (sid : Int) :
    skuQty (decrementInventory item ps) sid
      = if sid = item.sku_id
        then (skuQty ps sid).map (fun q => q - item.quantity)
        else skuQty ps sid := by
  induction ps with
  | nil =>
    by_cases h : sid = item.sku_id <;> simp [decrementInventory, skuQty, findProductForSku, h]
  | cons p ps ih =>
    by_cases hp : p.sku.any (fun sku => sku.id == item.sku_id)
    · have hstep : decrementInventory item (p :: ps)
          = { p with sku := decSkuList item p.sku } :: ps := by
        simp [decrementInventory, hp]
      rw [hstep, skuQty_cons, skuQty_cons]
      simp only [decSkuList_any]
      by_cases hs : p.sku.any (fun sku => sku.id == sid)
      · rw [if_pos hs, if_pos hs]
        by_cases h : sid = item.sku_id
        · subst h
          rw [if_pos rfl, find?_decSkuList_self]
          rcases hf : p.sku.find? (fun sku => sku.id == item.sku_id) with _ | a <;>
            simp [hf]
        · rw [if_neg h, find?_decSkuList_ne item p.sku sid h]
      · rw [if_neg hs, if_neg hs]
        by_cases h : sid = item.sku_id
        · exact absurd (h ▸ hp) hs
        · rw [if_neg h]
    · have hstep : decrementInventory item (p :: ps)
          = p :: decrementInventory item ps := by
        simp [decrementInventory, hp]
      rw [hstep, skuQty_cons, skuQty_cons]
      by_cases hs : p.sku.any (fun sku => sku.id == sid)
      · rw [if_pos hs, if_pos hs]
        by_cases h : sid = item.sku_id
        · exact absurd (h ▸ hs) hp
        · rw [if_neg h]
      · rw [if_neg hs, if_neg hs, ih]

theorem sumQtyFor_cons (item : OrderItem) (rest : List OrderItem) (sid : Int) :
    sumQtyFor (item :: rest) sid
      = (if item.sku_id = sid then item.quantity else 0) + sumQtyFor rest sid := by
  by_cases h : item.sku_id = sid <;> simp [sumQtyFor, h]

/-- Cumulative effect of the whole `forEach` inventory pass: every SKU id
loses the total quantity ordered for it (and an unresolvable id — `none` on
both sides — stays unresolvable). -/
theorem skuQty_applyInventoryDecrements (ps : List Product) (items : List OrderItem)
    (sid : Int) :
    skuQty (applyInventoryDecrements ps items) sid
      = (skuQty ps sid).map (fun q => q - sumQtyFor items sid) := by
  induction items generalizing ps with
  | nil =>
    cases h : skuQty ps sid <;> simp [applyInventoryDecrements, sumQtyFor, h]
  | cons item rest ih =>
    have hstep : applyInventoryDecrements ps (item :: rest)
        = applyInventoryDecrements (decrementInventory item ps) rest := rfl
    rw [hstep, ih, skuQty_decrementInventory, sumQtyFor_cons]
    by_cases h : sid = item.sku_id
    · rw [if_pos h, if_pos h.symm]
      cases skuQty ps sid <;> simp [sub_sub]
    · rw [if_neg h, if_neg (fun hx => h hx.symm)]
      simp

/-- A decrement whose `sku_id` resolves to no product is a no-op on the
catalog. -/
theorem decrementInventory_of_none (item : OrderItem) (ps : List Product)
    (h : findProductForSku ps item.sku_id = none) :
    decrementInventory item ps = ps := by
  induction ps with
  | nil => rfl
  | cons p ps ih =>
    rw [findProductForSku, List.find?_eq_none] at h
    have hp : ¬ (p.sku.any (fun sku => sku.id == item.sku_id)) = true :=
      h p (List.mem_cons_self p ps)
    have htail : findProductForSku ps item.sku_id = none := by
      rw [findProductForSku, List.find?_eq_none]
      exact fun q hq => h q (List.mem_cons_of_mem p hq)
    simp [decrementInventory, hp, ih htail]

theorem applyInventoryDecrements_of_none (ps : List Product) (items : List OrderItem)
    (h : ∀ item ∈ items, findProductForSku ps item.sku_id = none) :
    applyInventoryDecrements ps items = ps := by
  induction items with
  | nil => rfl
  | cons item rest ih =>
    have hstep : applyInventoryDecrements ps (item :: rest)
        = applyInventoryDecrements (decrementInventory item ps) rest := rfl
    rw [hstep, decrementInventory_of_none item ps (h item (List.mem_cons_self _ _))]
    exact ih (fun it hit => h it (List.mem_cons_of_mem _ hit))

theorem filter_eq_singleton_of_countP_one {α : Type _} (p : α → Bool) (l : List α)
    (a : α) (ha : a ∈ l) (hpa : p a = true) (h1 : l.countP p = 1) :
    l.filter p = [a] := by
  have hlen : (l.filter p).length = 1 := by
    rw [← List.countP_eq_length_filter]
    exact h1
  obtain ⟨b, hb⟩ := List.length_eq_one.mp hlen
  have hmem : a ∈ l.filter p := List.mem_filter.mpr ⟨ha, hpa⟩
  rw [hb] at hmem
  rw [hb, List.mem_singleton.mp hmem]

/-- Claim C3. Creating an order decrements each resolvable SKU mentioned in the
items by the total ordered quantity (exactly `item.quantity` for an item
whose `sku_id` occurs only once), leaves the catalog untouched when nothing
resolves, and neither `updateSaleOrder` nor `markOrderAsPaid` ever changes
any inventory quantity. -/
theorem inventory_effect (s : Store) (now : Nat) (d : SaleOrderFormData)
    (oid mid : Int) (o : SaleOrder) (s1 : Store)
    (hc : createSaleOrder s now d = (.ok o, s1)) :
    (∀ sid, skuQty s1.products sid
        = (skuQty s.products sid).map (fun q => q - sumQtyFor d.items sid))
    ∧ (∀ item ∈ d.items,
        d.items.countP (fun i => i.sku_id == item.sku_id) = 1 →
          skuQty s1.products item.sku_id
            = (skuQty s.products item.sku_id).map (fun q => q - item.quantity))
    ∧ ((∀ item ∈ d.items, findProductForSku s.products item.sku_id = none) →
        s1.products = s.products)
    ∧ (∀ d2, (updateSaleOrder s now oid d2).2.products = s.products)
    ∧ ((markOrderAsPaid s now mid).2.products = s.products) := by
  have hprod : s1.products = applyInventoryDecrements s.products d.items := by
    cases hfc : findCustomer s.customers d.customer_id with
    | none => rw [createSaleOrder_of_find_none hfc] at hc; simp at hc
    | some c =>
      rw [createSaleOrder_of_find_some hfc] at hc
      simp only [Prod.mk.injEq, Except.ok.injEq] at hc
      rw [← hc.2]
  refine ⟨?_, ?_, ?_, ?_, ?_⟩
  · intro sid
    rw [hprod]
    exact skuQty_applyInventoryDecrements s.products d.items sid
  · intro item hitem hcount
    have hfilter : d.items.filter (fun i => i.sku_id == item.sku_id) = [item] :=
      filter_eq_singleton_of_countP_one _ _ item hitem (by simp) hcount
    have hsum : sumQtyFor d.items item.sku_id = item.quantity := by
      rw [sumQtyFor, hfilter]
      simp
    rw [hprod, skuQty_applyInventoryDecrements, hsum]
  · intro hnone
    rw [hprod]
    exact applyInventoryDecrements_of_none s.products d.items hnone
  · intro d2
    exact (updateSaleOrder_products_customers s now oid d2).1
  · exact (markOrderAsPaid_products_customers s now mid).1

/-- Witness for C3 on the fixture: SKU 10 goes from 50 to 47 and the other
operations leave the catalog alone. -/
theorem inventory_effect_witness :
    skuQty (createSaleOrder wStore 5 wForm).2.products 10
        = (skuQty wStore.products 10).map (fun q => q - sumQtyFor wForm.items 10)
    ∧ skuQty (createSaleOrder wStore 5 wForm).2.products 10
        = (skuQty wStore.products 10).map (fun q => q - 3)
    ∧ (updateSaleOrder wStore 5 1 wForm).2.products = wStore.products
    ∧ (markOrderAsPaid wStore 5 1).2.products = wStore.products := by
  have h := inventory_effect wStore 5 wForm 1 1
    (okOrResult (createSaleOrder wStore 5 wForm).1)
    (createSaleOrder wStore 5 wForm).2 rfl
  refine ⟨h.1 10, ?_, h.2.2.2.1 wForm, h.2.2.2.2⟩
  have h2 := h.2.1 { sku_id := 10, price := 100, quantity := 3 }
    (by simp [wForm]) (by decide)
  exact h2

/-! ## C4: identifier assignment -/

theorem foldl_max_init_le (l : List SaleOrder) (a : Int) :
    a ≤ l.foldl (fun m o => max m o.id) a := by
  induction l generalizing a with
  | nil => exact le_refl a
  | cons x xs ih => exact le_trans (le_max_left a x.id) (ih (max a x.id))

theorem mem_le_foldl_max (l : List SaleOrder) (a : Int) (o : SaleOrder) :
    o ∈ l → o.id ≤ l.foldl (fun m o => max m o.id) a := by
  induction l generalizing a with
  | nil => intro ho; simp at ho
  | cons x xs ih =>
    intro ho
    rcases List.mem_cons.mp ho with rfl | hmem
    · exact le_trans (le_max_right a o.id) (foldl_max_init_le xs (max a o.id))
    · exact ih (max a x.id) hmem

theorem foldl_max_le (l : List SaleOrder) (a b : Int) (ha : a ≤ b)
    (h : ∀ o ∈ l, o.id ≤ b) : l.foldl (fun m o => max m o.id) a ≤ b := by
  induction l generalizing a with
  | nil => exact ha
  | cons x xs ih =>
    exact ih (max a x.id) (max_le ha (h x (List.mem_cons_self _ _)))
      (fun o ho => h o (List.mem_cons_of_mem _ ho))

/-- Iterated creation: apply `createSaleOrder` with the same form data `n`
times, keeping only the store. -/
def createN (s : Store) (now : Nat) (d : SaleOrderFormData) : Nat → Store
  | 0 => s
  | n + 1 => (createSaleOrder (createN s now d n) now d).2

theorem foldl_max_range_ids (n : Nat) :
    (List.map (fun k : Nat => (k : Int) + 1) (List.range n)).foldl max 0 = n := by
  induction n with
  | zero => rfl
  | succ m ih =>
    rw [List.range_succ, List.map_append, List.foldl_append, ih]
    simp only [List.map_cons, List.map_nil, List.foldl_cons, List.foldl_nil]
    rw [max_eq_right (by omega : (m : Int) ≤ (m : Int) + 1)]
    push_cast
    ring

theorem foldl_max_eq_map (l : List SaleOrder) (a : Int) :
    l.foldl (fun m o => max m o.id) a = (l.map SaleOrder.id).foldl max a := by
  induction l generalizing a with
  | nil => rfl
  | cons x xs ih => simp [ih]

/-- Invariant of repeated creation from an empty store: the customer list is
stable and the ids are exactly `1..n` in insertion order. -/
theorem createN_ids (s : Store) (now : Nat) (d : SaleOrderFormData) (c : Customer)
    (hcust : findCustomer s.customers d.customer_id = some c)
    (hs0 : s.saleOrders = []) (n : Nat) :
    (createN s now d n).customers = s.customers
    ∧ (createN s now d n).saleOrders.map SaleOrder.id
        = List.map (fun k : Nat => (k : Int) + 1) (List.range n) := by
  induction n with
  | zero => exact ⟨rfl, by simp [createN, hs0]⟩
  | succ m ih =>
    have hfind : findCustomer (createN s now d m).customers d.customer_id = some c := by
      rw [ih.1]; exact hcust
    have hstep : createSaleOrder (createN s now d m) now d
        = (.ok (newOrderOf (createN s now d m) now d c),
          { createN s now d m with
            saleOrders := (createN s now d m).saleOrders
              ++ [newOrderOf (createN s now d m) now d c]
            products := applyInventoryDecrements (createN s now d m).products d.items }) :=
      createSaleOrder_of_find_some hfind
    have hcustomers : (createN s now d (m + 1)).customers = s.customers := by
      show (createSaleOrder (createN s now d m) now d).2.customers = s.customers
      rw [hstep, ← ih.1]
    refine ⟨hcustomers, ?_⟩
    show (createSaleOrder (createN s now d m) now d).2.saleOrders.map SaleOrder.id = _
    rw [hstep]
    simp only [List.map_append, ih.2]
    have hid : (newOrderOf (createN s now d m) now d c).id = (m : Int) + 1 := by
      show nextOrderId (createN s now d m).saleOrders = (m : Int) + 1
      rw [nextOrderId, foldl_max_eq_map, ih.2, foldl_max_range_ids]
    rw [List.range_succ, List.map_append]
    simp [hid]

/-- Claim C4. `createSaleOrder` assigns `max(existing ids) + 1` (1 on an empty
store); from an empty store, `n` successive creations yield ids `1..n` in
creation order; when all existing ids are positive the new id collides with
none of them. -/
theorem next_id_spec (s : Store) (now : Nat) (d : SaleOrderFormData) (o : SaleOrder)
    (s1 : Store) (c : Customer)
    (hc : createSaleOrder s now d = (.ok o, s1))
    (hcust : findCustomer s.customers d.customer_id = some c) :
    (s.saleOrders = [] → o.id = 1)
    ∧ (∀ m, (∃ om ∈ s.saleOrders, om.id = m) → (∀ o' ∈ s.saleOrders, o'.id ≤ m) →
        0 < m → o.id = m + 1)
    ∧ ((∀ o' ∈ s.saleOrders, 0 < o'.id) → ∀ o' ∈ s.saleOrders, o'.id ≠ o.id)
    ∧ (s.saleOrders = [] →
        ∀ n, (createN s now d n).saleOrders.map SaleOrder.id
          = List.map (fun k : Nat => (k : Int) + 1) (List.range n)) := by
  have hid : o.id = nextOrderId s.saleOrders := by
    rw [createSaleOrder_of_find_some hcust] at hc
    simp only [Prod.mk.injEq, Except.ok.injEq] at hc
    rw [← hc.1]
    rfl
  refine ⟨?_, ?_, ?_, ?_⟩
  · intro h0
    rw [hid, nextOrderId, h0]
    rfl
  · intro m hmem hub hpos
    obtain ⟨om, hom, rfl⟩ := hmem
    rw [hid, nextOrderId]
    have hle : s.saleOrders.foldl (fun m o => max m o.id) 0 ≤ om.id :=
      foldl_max_le _ _ _ (le_of_lt hpos) hub
    have hge : om.id ≤ s.saleOrders.foldl (fun m o => max m o.id) 0 :=
      mem_le_foldl_max _ _ _ hom
    rw [le_antisymm hle hge]
  · intro _ o' ho' heq
    have hge : o'.id ≤ s.saleOrders.foldl (fun m o => max m o.id) 0 :=
      mem_le_foldl_max _ _ _ ho'
    rw [heq, hid, nextOrderId] at hge
    omega
  · intro h0 n
    exact (createN_ids s now d c hcust h0 n).2

/-- An empty-order store holding only the fixture customer. -/
def wEmptyStore : Store :=
  { saleOrders := [], products := [], customers := [wCustomer] }

/-- Witness for C4: creating from the empty fixture store gives id 1, and
the fresh id avoids every id of the singleton store. -/
theorem next_id_spec_witness :
    (okOrResult (createSaleOrder wEmptyStore 5 wForm).1).id = 1
    ∧ (∀ o' ∈ wStore.saleOrders,
        o'.id ≠ (okOrResult (createSaleOrder wStore 5 wForm).1).id) := by
  constructor
  · exact (next_id_spec wEmptyStore
      5 wForm _ _ wCustomer rfl rfl).1 rfl
  · exact (next_id_spec wStore 5 wForm
      (okOrResult (createSaleOrder wStore 5 wForm).1)
      (createSaleOrder wStore 5 wForm).2 wCustomer rfl rfl).2.2.1
      (by intro o' ho'; simp [wStore, wOrder] at ho'; simp [ho'])

/-! ## C8: failed operations leave the store untouched -/

/-- Claim C8. Whenever an operation fails (`Customer not found` or
`Order not found`), the whole store — order list and catalog inventory —
is exactly as before the call. -/
theorem failure_preserves_store (s : Store) (now : Nat) (d : SaleOrderFormData)
    (oid pid : Int) :
    (∀ e, (createSaleOrder s now d).1 = .error e → (createSaleOrder s now d).2 = s)
    ∧ (∀ e, (updateSaleOrder s now oid d).1 = .error e
        → (updateSaleOrder s now oid d).2 = s)
    ∧ (∀ e, (markOrderAsPaid s now pid).1 = .error e
        → (markOrderAsPaid s now pid).2 = s) := by
  refine ⟨?_, ?_, ?_⟩
  · intro e he
    cases hfc : findCustomer s.customers d.customer_id with
    | none => rw [createSaleOrder_of_find_none hfc]
    | some c => rw [createSaleOrder_of_find_some hfc] at he; simp at he
  · intro e he
    cases hj : findOrderIdx s.saleOrders oid with
    | none => rw [updateSaleOrder_of_idx_none hj]
    | some j =>
      cases hfc : findCustomer s.customers d.customer_id with
      | none => rw [updateSaleOrder_of_find_none hj hfc]
      | some c =>
        cases hold : s.saleOrders.get? j with
        | some old => rw [updateSaleOrder_of_find_some hj hfc hold] at he; simp at he
        | none =>
          have : (updateSaleOrder s now oid d).2
              = { s with
                  saleOrders :=
                    modifyAt (fun o => updatedOrderOf s now d c o) s.saleOrders j } := by
            simp [updateSaleOrder, hj, hfc]
          rw [this, modifyAt_of_get?_none _ _ _ hold]
  · intro e he
    cases hj : findOrderIdx s.saleOrders pid with
    | none => rw [markOrderAsPaid_of_idx_none hj]
    | some j =>
      cases hold : s.saleOrders.get? j with
      | some old => rw [markOrderAsPaid_of_idx_some hj hold] at he; simp at he
      | none =>
        have : (markOrderAsPaid s now pid).2
            = { s with saleOrders := modifyAt (paidOrderOf now) s.saleOrders j } := by
          simp [markOrderAsPaid, hj]
        rw [this, modifyAt_of_get?_none _ _ _ hold]

/-- Witness for C8: on a store with no matching customer and no matching
order, all three failing calls leave the store unchanged. -/
theorem failure_preserves_store_witness :
    (createSaleOrder { saleOrders := [], products := [], customers := [] } 5 wForm).2
        = { saleOrders := [], products := [], customers := [] }
    ∧ (updateSaleOrder { saleOrders := [], products := [], customers := [] } 5 1 wForm).2
        = { saleOrders := [], products := [], customers := [] }
    ∧ (markOrderAsPaid { saleOrders := [], products := [], customers := [] } 5 1).2
        = { saleOrders := [], products := [], customers := [] } := by
  have h := failure_preserves_store
    { saleOrders := [], products := [], customers := [] } 5 wForm 1 1
  exact ⟨h.1 "Customer not found" rfl, h.2.1 "Order not found" rfl,
    h.2.2 "Order not found" rfl⟩

/-! ## C9: timestamps -/

/-- Claim C9. On creation `created_at` and `last_modified` are both the current
time (hence equal); `updateSaleOrder` and `markOrderAsPaid` keep `created_at`
of the stored order and set `last_modified` to the current time. -/
theorem timestamps_spec (s : Store) (now : Nat) (d d2 : SaleOrderFormData)
    (oid mid : Int) (o o2 o3 : SaleOrder) (s1 s2 s3 : Store) (j k : Nat)
    (old old2 : SaleOrder)
    (hc : createSaleOrder s now d = (.ok o, s1))
    (hj : findOrderIdx s.saleOrders oid = some j)
    (hold : s.saleOrders.get? j = some old)
    (hu : updateSaleOrder s now oid d2 = (.ok o2, s2))
    (hk : findOrderIdx s.saleOrders mid = some k)
    (hold2 : s.saleOrders.get? k = some old2)
    (hm : markOrderAsPaid s now mid = (.ok o3, s3)) :
    o.created_at = now ∧ o.last_modified = now
    ∧ o2.created_at = old.created_at ∧ o2.last_modified = now
    ∧ o3.created_at = old2.created_at ∧ o3.last_modified = now := by
  have hcreate : o.created_at = now ∧ o.last_modified = now := by
    cases hfc : findCustomer s.customers d.customer_id with
    | none => rw [createSaleOrder_of_find_none hfc] at hc; simp at hc
    | some c =>
      rw [createSaleOrder_of_find_some hfc] at hc
      simp only [Prod.mk.injEq, Except.ok.injEq] at hc
      rw [← hc.1]
      exact ⟨rfl, rfl⟩
  have hupdate : o2.created_at = old.created_at ∧ o2.last_modified = now := by
    cases hfc : findCustomer s.customers d2.customer_id with
    | none => rw [updateSaleOrder_of_find_none hj hfc] at hu; simp at hu
    | some c =>
      rw [updateSaleOrder_of_find_some hj hfc hold] at hu
      simp only [Prod.mk.injEq, Except.ok.injEq] at hu
      rw [← hu.1]
      exact ⟨rfl, rfl⟩
  have hmark : o3.created_at = old2.created_at ∧ o3.last_modified = now := by
    rw [markOrderAsPaid_of_idx_some hk hold2] at hm
    simp only [Prod.mk.injEq, Except.ok.injEq] at hm
    rw [← hm.1]
    exact ⟨rfl, rfl⟩
  exact ⟨hcreate.1, hcreate.2, hupdate.1, hupdate.2, hmark.1, hmark.2⟩

/-- Witness for C9 on the fixture store. -/
theorem timestamps_spec_witness :
    (okOrResult (createSaleOrder wStore 5 wForm).1).created_at = 5
    ∧ (okOrResult (createSaleOrder wStore 5 wForm).1).last_modified = 5
    ∧ (okOrResult (updateSaleOrder wStore 5 1 wForm).1).created_at = wOrder.created_at
    ∧ (okOrResult (updateSaleOrder wStore 5 1 wForm).1).last_modified = 5
    ∧ (okOrResult (markOrderAsPaid wStore 5 1).1).created_at = wOrder.created_at
    ∧ (okOrResult (markOrderAsPaid wStore 5 1).1).last_modified = 5 :=
  timestamps_spec wStore 5 wForm wForm 1 1
    (okOrResult (createSaleOrder wStore 5 wForm).1)
    (okOrResult (updateSaleOrder wStore 5 1 wForm).1)
    (okOrResult (markOrderAsPaid wStore 5 1).1)
    (createSaleOrder wStore 5 wForm).2
    (updateSaleOrder wStore 5 1 wForm).2
    (markOrderAsPaid wStore 5 1).2
    0 0 wOrder wOrder
    rfl rfl rfl rfl rfl rfl rfl

end OrderApi
